import Mathlib

/-!
Verification development for the GitLabDashboard repository.

The definitions below are a shallow embedding of the TypeScript source:

* `src/app/services/gitlab.service.ts` — data interfaces (`GitLabProject`,
  `GitLabPipeline`, `ProjectWithPipeline`).
* `src/app/components/pipelines/pipelines.component.ts` — the aggregation
  and refresh coordinator (`loadPipelinesOptimized`,
  `loadProjectsInBatches`, `retryPipeline`, `canRetryPipeline`,
  `ngOnDestroy`).
* `src/app/services/pin.service.ts` (ordered-array revision) —
  `reorderPinned`, `getPinnedOrder`, `setPinnedOrder`.
* the export/import component — `exportUserData`, `importUserData`.

Asynchronous completion of the per-batch pipeline requests is modelled by
an explicit `order : List Nat` argument: the list of batch indices in the
order in which their `forkJoin` subscriptions fire.  All completions are
serialized (single-threaded event loop), so a cycle is a fold over that
order.  Per-request results come from an environment function
`pipelineOf : Int → Option GitLabPipeline`; the per-project
`catchError(() => of(null))` degrade and the "no pipelines yet" case are
both the `none` value, exactly as in the source where both produce
`pipeline: null`.
-/

/-- `GitLabProject` interface from `gitlab.service.ts`. -/
structure GitLabProject where
  id : Int
  name : String
  path_with_namespace : String
  web_url : String
deriving DecidableEq, Repr

/-- `GitLabPipeline` interface from `gitlab.service.ts` (the lazily
fetched `jobs?` field is omitted: it is never part of the snapshot). -/
structure GitLabPipeline where
  id : Int
  status : String
  ref : String
  sha : String
  web_url : String
  created_at : String
  updated_at : String
deriving DecidableEq, Repr

/-- `ProjectWithPipeline extends GitLabProject { pipeline: GitLabPipeline | null }`. -/
structure ProjectWithPipeline extends GitLabProject where
  pipeline : Option GitLabPipeline
deriving DecidableEq, Repr

/-- The six values of the `status` union type declared on
`GitLabPipeline` and `GitLabJob` in `gitlab.service.ts`. -/
inductive PipelineStatus where
  | success
  | failed
  | running
  | pending
  | canceled
  | skipped
deriving DecidableEq, Repr

/-- The string carried by each `status` union member. -/
def statusString : PipelineStatus → String
  | .success => "success"
  | .failed => "failed"
  | .running => "running"
  | .pending => "pending"
  | .canceled => "canceled"
  | .skipped => "skipped"

/-- `String.prototype.toLowerCase()` restricted to the character-wise
lowering that is all the status strings ever exercise. -/
def toLowerStr (s : String) : String :=
  String.mk (s.data.map Char.toLower)

/-- `canRetryPipeline(status: string | null | undefined)` from
`pipelines.component.ts` lines 352–358.  `none` stands for both `null`
and `undefined`; the empty string is the remaining falsy string value. -/
def canRetryPipeline (status : Option String) : Bool :=
  match status with
  | none => false
  | some s =>
    if s = "" then false
    else
      let lowerStatus := toLowerStr s
      lowerStatus = "failed" || lowerStatus = "canceled" || lowerStatus = "skipped"

/-- `reorderPinned(fromIndex, toIndex)` from `pin.service.ts`, as a pure
function on the stored pinned-id array.  `current.splice(fromIndex, 1)`
is `take fromIndex ++ drop (fromIndex+1)` together with reading the
moved element, and `current.splice(adjustedToIndex, 0, moved)` is the
take/insert/drop below (JavaScript `splice` clamps an over-long insert
index to the array length, as `take`/`drop` do). -/
def reorderPinned (fromIndex toIndex : Nat) (current : List Int) : List Int :=
  let moved := current.getD fromIndex 0
  let removed := current.take fromIndex ++ current.drop (fromIndex + 1)
  let adjustedToIndex := if fromIndex < toIndex then toIndex - 1 else toIndex
  removed.take adjustedToIndex ++ moved :: removed.drop adjustedToIndex

/-- The signal fields of `PipelinesComponent` that the refresh cycle and
the retry action read or write.  The `retryingPipelines` set is kept as a
duplicate-free list of ids. -/
structure ComponentState where
  projects : List ProjectWithPipeline
  loading : Bool
  refreshing : Bool
  loadingPinned : Bool
  loadingOthers : Bool
  error : Option String
  retryingPipelines : List Int
deriving DecidableEq, Repr

/-- One refresh cycle's external behaviour: whether `getProjects` errors,
the project list it would deliver, whether the pinned `forkJoin` errors
wholesale, the latest pipeline each per-project request delivers (with
`none` covering both "no pipeline" and the degraded failure case), which
per-batch `forkJoin`s error, and the order in which the batch
subscriptions complete. -/
structure CycleEnv where
  fetchFails : Bool
  fetchedProjects : List GitLabProject
  pinnedFails : Bool
  pipelineOf : Int → Option GitLabPipeline
  batchFails : Nat → Bool
  order : List Nat

/-- What one batch subscription appends to `results`: the `next` handler
appends `batchResults` (each project joined with its fetched pipeline),
the `error` handler appends `batch.map(p => ({...p, pipeline: null}))`. -/
def batchResult (pipelineOf : Int → Option GitLabPipeline) (fails : Bool)
    (batch : List GitLabProject) : List ProjectWithPipeline :=
  if fails then batch.map (fun p => ⟨p, none⟩)
  else batch.map (fun p => ⟨p, pipelineOf p.id⟩)

/-- Structural worker for `makeBatches`: peels one ten-element slice per
step; `fuel` bounds the recursion (any `fuel ≥ l.length` gives the
slicing loop's behaviour, and `makeBatches` passes `l.length`). -/
def makeBatchesAux : Nat → List GitLabProject → List (List GitLabProject)
  | _, [] => []
  | 0, l => [l]
  | fuel + 1, p :: rest => (p :: rest.take 9) :: makeBatchesAux fuel (rest.drop 9)

/-- The batch-building `for` loop of `loadProjectsInBatches`:
`projects.slice(i, i + BATCH_SIZE)` for `i = 0, 10, 20, …` with
`BATCH_SIZE = 10`. -/
def makeBatches (l : List GitLabProject) : List (List GitLabProject) :=
  makeBatchesAux l.length l

/-- The contents of `results` after the batch subscriptions listed in
`order` have completed (each completion does `results.push(...)`). -/
def runBatches (pipelineOf : Int → Option GitLabPipeline) (batchFails : Nat → Bool)
    (batches : List (List GitLabProject)) : List Nat → List ProjectWithPipeline
  | [] => []
  | i :: rest =>
    batchResult pipelineOf (batchFails i) (batches.getD i []) ++
      runBatches pipelineOf batchFails batches rest

/-- One completion event inside `loadProjectsInBatches`: append the batch
result to `results`, and, only when `isInitialLoad`, publish
`[...pinnedProjects, ...results]` (both the `next` and the `error`
handler publish exactly that under the same guard). -/
def lpibStep (pipelineOf : Int → Option GitLabPipeline) (batchFails : Nat → Bool)
    (batches : List (List GitLabProject)) (isInitialLoad : Bool)
    (pinnedProjects : List ProjectWithPipeline)
    (st : List ProjectWithPipeline × List (List ProjectWithPipeline)) (i : Nat) :
    List ProjectWithPipeline × List (List ProjectWithPipeline) :=
  let results := st.1 ++ batchResult pipelineOf (batchFails i) (batches.getD i [])
  (results, if isInitialLoad then st.2 ++ [pinnedProjects ++ results] else st.2)

/-- `loadProjectsInBatches` (lines 270–328): batches the given projects,
runs the completions in `order`, and returns the final `results`
(handed to the callback once `completedBatches === batches.length`)
together with the list of intermediate `projects.set` publishes.  The
source's `projects.length === 0` early return (callback immediately,
no publish) coincides with the fold over the empty completion order. -/
def loadProjectsInBatches (pipelineOf : Int → Option GitLabPipeline)
    (batchFails : Nat → Bool) (projects : List GitLabProject)
    (isInitialLoad : Bool) (pinnedProjects : List ProjectWithPipeline)
    (order : List Nat) :
    List ProjectWithPipeline × List (List ProjectWithPipeline) :=
  if projects.isEmpty then ([], [])
  else
    order.foldl (lpibStep pipelineOf batchFails (makeBatches projects) isInitialLoad pinnedProjects) ([], [])

/-- The `error` handler of the `getProjects().subscribe` call
(lines 244–251): set the error message, clear every loading flag, touch
nothing else. -/
def onProjectsError (st : ComponentState) : ComponentState :=
  { st with
    error := some "Failed to load projects. Please check your credentials.",
    loading := false, refreshing := false,
    loadingPinned := false, loadingOthers := false }

/-- `projects.filter(p => pinnedIds.has(p.id))`: the pinned partition of
a fetch, in fetch (server) order — this is the only ordering the
component ever applies to pinned projects. -/
def pinnedOf (pins : List Int) (ce : CycleEnv) : List GitLabProject :=
  ce.fetchedProjects.filter (fun p => pins.contains p.id)

/-- `projects.filter(p => !pinnedIds.has(p.id))`: the non-pinned
remainder, in fetch order. -/
def otherOf (pins : List Int) (ce : CycleEnv) : List GitLabProject :=
  ce.fetchedProjects.filter (fun p => !pins.contains p.id)

/-- The `next` handler of the `getProjects().subscribe` call
(lines 195–242): partition by pin membership, fetch the pinned subset
first (each project degraded to `pipeline: null` on its own failure),
then run the other projects through `loadProjectsInBatches`; each
callback publishes the combined list and clears the flags.  Returns the
final state and every `projects.set` publish of the cycle in order.
`st.projects.isEmpty` is the `isInitialLoad` check made inside
`loadProjectsInBatches`; no publish has yet happened when it runs, so it
reads the snapshot the cycle started from.  The three arms are the
source's `pinnedProjects.length > 0` success/error branches and its
no-pinned `else`; on a wholesale pinned failure the cycle continues with
an empty pinned result and the callback publishes the batch results
alone. -/
def onProjectsNext (pins : List Int) (ce : CycleEnv) (st : ComponentState) :
    ComponentState × List (List ProjectWithPipeline) :=
  if (pinnedOf pins ce).isEmpty then
    ({ st with
        projects := (loadProjectsInBatches ce.pipelineOf ce.batchFails (otherOf pins ce)
          st.projects.isEmpty [] ce.order).1,
        loading := false, refreshing := false,
        loadingPinned := false, loadingOthers := false },
     (loadProjectsInBatches ce.pipelineOf ce.batchFails (otherOf pins ce)
          st.projects.isEmpty [] ce.order).2 ++
       [(loadProjectsInBatches ce.pipelineOf ce.batchFails (otherOf pins ce)
          st.projects.isEmpty [] ce.order).1])
  else if ce.pinnedFails then
    ({ st with
        projects := (loadProjectsInBatches ce.pipelineOf ce.batchFails (otherOf pins ce)
          st.projects.isEmpty [] ce.order).1,
        loading := false, refreshing := false,
        loadingPinned := false, loadingOthers := false },
     (loadProjectsInBatches ce.pipelineOf ce.batchFails (otherOf pins ce)
          st.projects.isEmpty [] ce.order).2 ++
       [(loadProjectsInBatches ce.pipelineOf ce.batchFails (otherOf pins ce)
          st.projects.isEmpty [] ce.order).1])
  else
    ({ st with
        projects := (pinnedOf pins ce).map (fun p => ⟨p, ce.pipelineOf p.id⟩) ++
          (loadProjectsInBatches ce.pipelineOf ce.batchFails (otherOf pins ce)
            st.projects.isEmpty ((pinnedOf pins ce).map (fun p => ⟨p, ce.pipelineOf p.id⟩)) ce.order).1,
        loading := false, refreshing := false,
        loadingPinned := false, loadingOthers := false },
     (loadProjectsInBatches ce.pipelineOf ce.batchFails (otherOf pins ce)
        st.projects.isEmpty ((pinnedOf pins ce).map (fun p => ⟨p, ce.pipelineOf p.id⟩)) ce.order).2 ++
       [(pinnedOf pins ce).map (fun p => ⟨p, ce.pipelineOf p.id⟩) ++
        (loadProjectsInBatches ce.pipelineOf ce.batchFails (otherOf pins ce)
          st.projects.isEmpty ((pinnedOf pins ce).map (fun p => ⟨p, ce.pipelineOf p.id⟩)) ce.order).1])

/-- The first statements of `loadPipelinesOptimized`: clear the error
signal, then raise `loading` on an initial load (`projects` empty) or
the non-destructive `refreshing` on a background refresh. -/
def setCycleFlags (st : ComponentState) : ComponentState :=
  if st.projects.isEmpty then { st with error := none, loading := true }
  else { st with error := none, refreshing := true }

/-- `loadPipelinesOptimized` (lines 179–253): set the cycle flags, then
hand the `getProjects` outcome to the matching subscribe handler. -/
def loadPipelinesOptimized (pins : List Int) (ce : CycleEnv) (st : ComponentState) :
    ComponentState × List (List ProjectWithPipeline) :=
  if ce.fetchFails then (onProjectsError (setCycleFlags st), [])
  else onProjectsNext pins ce (setCycleFlags st)

/-- The component together with the pin store it delegates to and the
repeating-timer subscription armed in `ngOnInit`. -/
structure World where
  pins : List Int
  comp : ComponentState
  timerActive : Bool
deriving Repr

/-- One timer-driven (or initial) refresh cycle at the `World` level.
`loadPipelinesOptimized` never calls a `PinService` mutator, so the pin
store is returned unchanged. -/
def runCycle (ce : CycleEnv) (w : World) : World × List (List ProjectWithPipeline) :=
  let r := loadPipelinesOptimized w.pins ce w.comp
  ({ w with comp := r.1 }, r.2)

/-- `ngOnDestroy` (lines 120–124): unsubscribe the repeating `interval`
subscription.  Nothing else is cancelled or guarded. -/
def ngOnDestroy (w : World) : World :=
  { w with timerActive := false }

/-- A tick of the `interval(REFRESH_INTERVAL)` subscription: after
`unsubscribe()` the callback is never invoked again, otherwise it runs
`loadPipelinesOptimized`. -/
def handleTimerTick (ce : CycleEnv) (w : World) : World × List (List ProjectWithPipeline) :=
  if w.timerActive then runCycle ce w else (w, [])

/-- `new Set(old).add(x)` on the id set. -/
def setAdd (l : List Int) (x : Int) : List Int :=
  if l.contains x then l else l ++ [x]

/-- `new Set(old).delete(x)` on the id set. -/
def setDelete (l : List Int) (x : Int) : List Int :=
  l.filter (fun y => y ≠ x)

/-- `retryPipeline(project)` (lines 138–177).  `retryResponse` is the
outcome of the `retryPipeline` HTTP call: `some newPipeline` drives the
`next` handler, `none` the `error` handler. -/
def retryPipeline (retryResponse : Option GitLabPipeline)
    (project : ProjectWithPipeline) (st : ComponentState) : ComponentState :=
  match project.pipeline with
  | none => st
  | some _ =>
    let projectId := project.id
    let st1 := { st with retryingPipelines := setAdd st.retryingPipelines projectId }
    match retryResponse with
    | some newPipeline =>
      let updatedProjects := st1.projects.map (fun p =>
        if p.id = projectId then { p with pipeline := some newPipeline } else p)
      { st1 with projects := updatedProjects,
                 retryingPipelines := setDelete st1.retryingPipelines projectId }
    | none =>
      { st1 with retryingPipelines := setDelete st1.retryingPipelines projectId }

/-- The JSON values that can appear as elements of `pinnedRepos` (or as
the field itself) in an import document. -/
inductive JVal where
  | jnum (n : Int)
  | jstr (s : String)
  | jarr (elems : List JVal)
  | jnull

/-- JavaScript truthiness of a `JVal`. -/
def jTruthy : JVal → Bool
  | .jnum n => n ≠ 0
  | .jstr s => s ≠ ""
  | .jarr _ => true
  | .jnull => false

/-- `Array.isArray`. -/
def jIsArray : JVal → Bool
  | .jarr _ => true
  | _ => false

/-- `typeof id === 'number'`. -/
def jIsNumber : JVal → Bool
  | .jnum _ => true
  | _ => false

/-- The element list of an array value. -/
def jElems : JVal → List JVal
  | .jarr l => l
  | _ => []

/-- The numeric payload of a number value. -/
def jNumVal : JVal → Int
  | .jnum n => n
  | _ => 0

/-- `AuthCredentials` from `auth.service.ts`. -/
structure AuthCredentials where
  username : String
  token : String
deriving DecidableEq, Repr

/-- A parsed import document per the `ExportData` interface of the
export/import component.  `version` is `none` when the field is absent. -/
structure ImportDoc where
  version : Option String
  credentials : Option AuthCredentials
  pinnedRepos : Option JVal
  exportDate : Option String

/-- The two persisted records: the credential store of `auth.service.ts`
and the ordered pin list of `pin.service.ts`. -/
structure StoredState where
  credentials : Option AuthCredentials
  pinnedOrder : List Int
deriving DecidableEq, Repr

/-- The observable outcome of `importUserData`: the stores afterwards,
the `importError` message ("" when cleared) and the `importSuccess`
flag. -/
structure ImportOutcome where
  state : StoredState
  importError : String
  importSuccess : Bool
deriving DecidableEq, Repr

/-- `!data.version`: the field is absent or the empty string. -/
def versionFalsy : Option String → Bool
  | none => true
  | some s => s = ""

/-- The tail of `importUserData` starting at the `if (imported)` check:
success when anything was imported, otherwise the "no valid data"
error. -/
def finishImport (st : StoredState) (imported : Bool) : ImportOutcome :=
  if imported then ⟨st, "", true⟩
  else ⟨st, "No valid data found in import file", false⟩

/-- The `pinnedRepos` step of `importUserData`: a present array whose
elements are all numbers is written to the pin store via
`setPinnedOrder`; an array with a non-numeric element aborts; a present
non-array (or falsy) value is silently skipped. -/
def importPinnedStep (doc : ImportDoc) (st : StoredState) (imported : Bool) : ImportOutcome :=
  match doc.pinnedRepos with
  | some v =>
    if jTruthy v && jIsArray v then
      if (jElems v).all jIsNumber then
        finishImport { st with pinnedOrder := (jElems v).map jNumVal } true
      else ⟨st, "Invalid pinned repos data: must be array of numbers", false⟩
    else finishImport st imported
  | none => finishImport st imported

/-- `importUserData` of the export/import component (part_000 lines
113–179), from the successfully parsed document onwards: validate the
version, then validate and save credentials, then validate and save the
pin order.  Note the saving of credentials happens before the
`pinnedRepos` validation runs. -/
def importUserData (doc : ImportDoc) (st : StoredState) : ImportOutcome :=
  if versionFalsy doc.version then
    ⟨st, "Invalid export file: missing version", false⟩
  else
    match doc.credentials with
    | some c =>
      if c.username = "" ∨ c.token = "" then
        ⟨st, "Invalid credentials data", false⟩
      else
        importPinnedStep doc { st with credentials := some ⟨c.username, c.token⟩ } true
    | none => importPinnedStep doc st false

/-- `exportUserData` (part_000 lines 39–63): version `"1.0"`, the
export date, the credentials when the store holds some, and
`pinnedRepos` when `getPinnedOrder()` is non-empty. -/
def exportUserData (st : StoredState) (exportDate : String) : ImportDoc :=
  let base : ImportDoc :=
    { version := some "1.0", credentials := none, pinnedRepos := none,
      exportDate := some exportDate }
  let withCreds :=
    match st.credentials with
    | some c => { base with credentials := some ⟨c.username, c.token⟩ }
    | none => base
  if st.pinnedOrder.isEmpty then withCreds
  else { withCreds with pinnedRepos := some (.jarr (st.pinnedOrder.map .jnum)) }

/-- C4 counterexample: on the pinned order `[A,B,C,D] = [10,20,30,40]`,
`reorderPinned(0, 2)` yields `[B,A,C,D]`, not the `[B,C,A,D]` the claim
states: the source decrements a forward-move target index
(`adjustedToIndex = toIndex - 1`), so the moved id lands one slot before
the stated target. -/
theorem reorder_forward_counterexample :
    reorderPinned 0 2 [10, 20, 30, 40] = [20, 10, 30, 40] ∧
    reorderPinned 0 2 [10, 20, 30, 40] ≠ [20, 30, 10, 40] := by
  decide

/-- C4 amended: `reorderPinned` removes the moved id first and reinserts
it at `toIndex - 1` when moving forward (`toIndex` unchanged when moving
backward); hence `reorderPinned(2,0)` on `[A,B,C,D]` yields `[C,A,B,D]`
and `reorderPinned(0,2)` on `[A,B,C,D]` yields `[B,A,C,D]`. -/
theorem reorderPinned_examples (a b c d : Int) :
    reorderPinned 2 0 [a, b, c, d] = [c, a, b, d] ∧
    reorderPinned 0 2 [a, b, c, d] = [b, a, c, d] := by
  exact ⟨rfl, rfl⟩

/-- C8: over the status union type declared in `gitlab.service.ts`
(plus `none` for an absent `null`/`undefined` status), `canRetryPipeline`
returns `true` exactly for `failed`, `canceled` and `skipped`. -/
theorem canRetry_characterization (st : Option PipelineStatus) :
    canRetryPipeline (st.map statusString) = true ↔
      st = some .failed ∨ st = some .canceled ∨ st = some .skipped := by
  cases st with
  | none => decide
  | some s => cases s <;> decide

/-- The pinned result the batch phase is seeded with: empty when there
are no pinned projects, empty when the pinned `forkJoin` fails wholesale
(the cycle continues without them), otherwise each pinned project joined
with its fetched pipeline. -/
def pinnedResultOf (pins : List Int) (ce : CycleEnv) : List ProjectWithPipeline :=
  if (pinnedOf pins ce).isEmpty then []
  else if ce.pinnedFails then []
  else (pinnedOf pins ce).map (fun p => ⟨p, ce.pipelineOf p.id⟩)

/-- The accumulated batch results after the completions in `order`. -/
def otherRun (pins : List Int) (ce : CycleEnv) (order : List Nat) : List ProjectWithPipeline :=
  runBatches ce.pipelineOf ce.batchFails (makeBatches (otherOf pins ce)) order

/-- The snapshot the cycle finally publishes. -/
def finalSnapshotOf (pins : List Int) (ce : CycleEnv) : List ProjectWithPipeline :=
  pinnedResultOf pins ce ++ otherRun pins ce ce.order

/-- Unrolling the fold of `loadProjectsInBatches`: the final `results`
accumulate the batch results in completion order, and on an initial load
one publish per completion records the results gathered so far. -/
lemma lpib_foldl (pf : Int → Option GitLabPipeline) (bf : Nat → Bool)
    (batches : List (List GitLabProject)) (isInitial : Bool)
    (pinned : List ProjectWithPipeline) (order : List Nat) :
    ∀ (acc : List ProjectWithPipeline) (pubs : List (List ProjectWithPipeline)),
      order.foldl (lpibStep pf bf batches isInitial pinned) (acc, pubs) =
        (acc ++ runBatches pf bf batches order,
         pubs ++ (if isInitial then
             (List.range order.length).map
               (fun j => pinned ++ (acc ++ runBatches pf bf batches (order.take (j + 1))))
           else [])) := by
  induction order with
  | nil => intro acc pubs; simp [runBatches]
  | cons i rest ih =>
    intro acc pubs
    rw [List.foldl_cons,
      show lpibStep pf bf batches isInitial pinned (acc, pubs) i =
          (acc ++ batchResult pf (bf i) (batches.getD i []),
           if isInitial then
             pubs ++ [pinned ++ (acc ++ batchResult pf (bf i) (batches.getD i []))]
           else pubs) from rfl,
      ih]
    cases isInitial with
    | false => simp [runBatches, List.append_assoc]
    | true =>
      simp [runBatches, List.range_succ_eq_map, List.map_map, Function.comp,
        List.take_succ_cons, List.append_assoc]

/-- `loadProjectsInBatches` in closed form, assuming the completion
order is empty whenever there is nothing to batch (every real completion
order is a permutation of the batch indices, so this always holds). -/
lemma loadProjectsInBatches_eq (pf : Int → Option GitLabPipeline) (bf : Nat → Bool)
    (projects : List GitLabProject) (isInitial : Bool)
    (pinned : List ProjectWithPipeline) (order : List Nat)
    (hvalid : projects = [] → order = []) :
    loadProjectsInBatches pf bf projects isInitial pinned order =
      (runBatches pf bf (makeBatches projects) order,
       if isInitial then
         (List.range order.length).map
           (fun j => pinned ++ runBatches pf bf (makeBatches projects) (order.take (j + 1)))
       else []) := by
  cases projects with
  | nil =>
    have ho := hvalid rfl
    subst ho
    simp [loadProjectsInBatches, runBatches]
  | cons p rest =>
    rw [loadProjectsInBatches, if_neg (by simp), lpib_foldl]
    simp

/-- A successful-fetch refresh cycle in closed form: the final state
carries `finalSnapshotOf`, every flag cleared and the error reset; the
publish trace is one growing publish per batch completion when the
starting snapshot was empty, and nothing until the single final publish
otherwise. -/
lemma cycle_ok (pins : List Int) (ce : CycleEnv) (st : ComponentState)
    (hfetch : ce.fetchFails = false)
    (hvalid : otherOf pins ce = [] → ce.order = []) :
    loadPipelinesOptimized pins ce st =
      ({ st with projects := finalSnapshotOf pins ce, loading := false,
                 refreshing := false, loadingPinned := false,
                 loadingOthers := false, error := none },
       (if st.projects.isEmpty then
          (List.range ce.order.length).map
            (fun j => pinnedResultOf pins ce ++ otherRun pins ce (ce.order.take (j + 1)))
        else []) ++ [finalSnapshotOf pins ce]) := by
  have hlp := loadProjectsInBatches_eq ce.pipelineOf ce.batchFails (otherOf pins ce)
    st.projects.isEmpty [] ce.order hvalid
  have hlp2 := loadProjectsInBatches_eq ce.pipelineOf ce.batchFails (otherOf pins ce)
    st.projects.isEmpty ((pinnedOf pins ce).map (fun p => ⟨p, ce.pipelineOf p.id⟩))
    ce.order hvalid
  unfold loadPipelinesOptimized onProjectsNext
  rw [hfetch]
  cases hpe : (pinnedOf pins ce).isEmpty <;>
  cases hpf : ce.pinnedFails <;>
  cases hinit : st.projects.isEmpty <;>
    simp only [hinit, Bool.false_eq_true, ite_true, ite_false] at hlp hlp2 <;>
    simp only [Bool.false_eq_true, if_false, if_true, ite_true, ite_false, setCycleFlags,
      hinit, hlp, hlp2, finalSnapshotOf, otherRun, pinnedResultOf, hpe, hpf] <;>
    (try simp only [List.nil_append, List.append_nil, ite_true, ite_false,
      Bool.false_eq_true, List.map_map]) <;>
    try rfl

/-- Both batch handlers keep the batch's projects, in batch order. -/
lemma batchResult_proj (pf : Int → Option GitLabPipeline) (fails : Bool)
    (batch : List GitLabProject) :
    (batchResult pf fails batch).map (fun p => p.toGitLabProject) = batch := by
  cases fails
  all_goals
    induction batch with
    | nil => simp [batchResult]
    | cons a t ih => simpa [batchResult] using ih

/-- Forgetting pipelines, the accumulated results are the batches listed
in completion order, concatenated. -/
lemma runBatches_proj (pf : Int → Option GitLabPipeline) (bf : Nat → Bool)
    (batches : List (List GitLabProject)) (order : List Nat) :
    (runBatches pf bf batches order).map (fun p => p.toGitLabProject) =
      (order.map (fun i => batches.getD i [])).flatten := by
  induction order with
  | nil => simp [runBatches]
  | cons i rest ih => simp [runBatches, batchResult_proj, ih]

/-- Reading a list back element by element reproduces it. -/
lemma map_getD_range {α : Type} (d : α) :
    ∀ l : List α, (List.range l.length).map (fun i => l.getD i d) = l := by
  intro l
  induction l with
  | nil => rfl
  | cons a t ih =>
    rw [List.length_cons, List.range_succ_eq_map, List.map_cons, List.map_map]
    rw [show ((fun i => (a :: t).getD i d) ∘ Nat.succ) = (fun i => t.getD i d) from
      funext (fun i => by simp only [Function.comp_apply, List.getD_cons_succ])]
    rw [ih, List.getD_cons_zero]

/-- Any sufficient fuel makes the slicing worker's batches concatenate
back to the input list. -/
lemma makeBatchesAux_flatten :
    ∀ (fuel : Nat) (l : List GitLabProject), l.length ≤ fuel →
      (makeBatchesAux fuel l).flatten = l := by
  intro fuel
  induction fuel with
  | zero =>
    intro l hl
    cases l with
    | nil => rfl
    | cons p rest => simp at hl
  | succ fuel ih =>
    intro l hl
    cases l with
    | nil => rfl
    | cons p rest =>
      rw [makeBatchesAux, List.flatten_cons, ih (rest.drop 9)]
      · simp [List.take_append_drop]
      · rw [List.length_drop]
        exact le_trans (Nat.sub_le _ _) (Nat.le_of_succ_le_succ hl)

/-- The slicing loop of `loadProjectsInBatches` loses and reorders
nothing: its batches concatenate back to the input list. -/
lemma makeBatches_join (l : List GitLabProject) : (makeBatches l).flatten = l :=
  makeBatchesAux_flatten l.length l (Nat.le_refl _)

/-- When the batch completions arrive in index order, the concatenated
results list exactly the input projects, in server order. -/
lemma runBatches_range_proj (pf : Int → Option GitLabPipeline) (bf : Nat → Bool)
    (other : List GitLabProject) :
    (runBatches pf bf (makeBatches other)
        (List.range (makeBatches other).length)).map (fun p => p.toGitLabProject) =
      other := by
  rw [runBatches_proj, map_getD_range, makeBatches_join]

/-- Forgetting pipelines, the pinned result lists exactly the pinned
partition of the fetch (in fetch order) whenever the pinned batch does
not fail wholesale. -/
lemma pinnedResultOf_proj (pins : List Int) (ce : CycleEnv)
    (hpf : ce.pinnedFails = false) :
    (pinnedResultOf pins ce).map (fun p => p.toGitLabProject) = pinnedOf pins ce := by
  unfold pinnedResultOf
  rw [hpf]
  cases hpe : (pinnedOf pins ce).isEmpty with
  | true =>
    simp only [if_true, ite_true, Bool.false_eq_true, if_false, ite_false, List.map_nil]
    exact (List.isEmpty_iff.mp hpe).symm
  | false =>
    simp only [Bool.false_eq_true, if_false, ite_false]
    induction pinnedOf pins ce with
    | nil => simp
    | cons a t ih => simpa using ih

/-- A concrete project record (only the id matters to the claims). -/
def sampleProject (i : Int) : GitLabProject :=
  ⟨i, "", "", ""⟩

/-- A component state before any load: empty snapshot, no flags, no
error, nothing retrying. -/
def emptyComponentState : ComponentState :=
  ⟨[], false, false, false, false, none, []⟩

/-- Eleven unpinned projects (ids 1–11, so two batches: ids 1–10 and
id 11) whose second batch completes before the first. -/
def c1env : CycleEnv :=
  ⟨false, (List.range 11).map (fun i => sampleProject (Int.ofNat i + 1)), false,
   fun _ => none, fun _ => false, [1, 0]⟩

/-- C1 counterexample: with server order 1,…,11 and no pins, the batches
are {1,…,10} and {11}; if the second batch's requests complete first,
the published snapshot lists project 11 before batch 0's projects —
`results.push(...batchResults)` appends in completion order, so batch
i's results do not always precede batch i+1's. -/
theorem batch_out_of_order_counterexample :
    ((loadPipelinesOptimized [] c1env emptyComponentState).1.projects.map (fun p => p.id)) =
      [11, 1, 2, 3, 4, 5, 6, 7, 8, 9, 10] ∧
    ((loadPipelinesOptimized [] c1env emptyComponentState).1.projects.map (fun p => p.id)) ≠
      [1, 2, 3, 4, 5, 6, 7, 8, 9, 10, 11] := by
  decide

/-- C1 amended: the "other" section is the concatenation of the batch
results in batch-completion order (second conjunct); server order within
each batch is always preserved, and server order across batch
boundaries is preserved exactly when the batches complete in index
order (first conjunct). -/
theorem batches_in_order_preserve_server_order (pf : Int → Option GitLabPipeline)
    (bf : Nat → Bool) (other : List GitLabProject) :
    ((runBatches pf bf (makeBatches other)
        (List.range (makeBatches other).length)).map (fun p => p.toGitLabProject) =
      other) ∧
    (∀ order : List Nat,
      (runBatches pf bf (makeBatches other) order).map (fun p => p.toGitLabProject) =
        (order.map (fun i => (makeBatches other).getD i [])).flatten) :=
  ⟨runBatches_range_proj pf bf other, fun order => runBatches_proj pf bf (makeBatches other) order⟩

/-- Two fetched projects, both pinned, nothing to batch. -/
def c2env : CycleEnv :=
  ⟨false, [sampleProject 1, sampleProject 2], false, fun _ => none, fun _ => false, []⟩

/-- C2 counterexample: with `PinnedOrder = [2, 1]` and fetch order
`[1, 2]`, the published pinned partition is `[1, 2]` — the coordinator
filters the fetch by pin membership (`pinnedIds.has`) and never consults
PinnedOrder's sequence, so the claimed PinnedOrder-relative ordering
`[2, 1]` does not hold. -/
theorem pinned_partition_fetch_order_counterexample :
    ((loadPipelinesOptimized [2, 1] c2env emptyComponentState).1.projects.map (fun p => p.id)) =
      [1, 2] ∧
    ((loadPipelinesOptimized [2, 1] c2env emptyComponentState).1.projects.map (fun p => p.id)) ≠
      [2, 1] := by
  decide

/-- C2 amended: the published snapshot's pinned partition contains
exactly the fetched projects whose ids are in PinnedOrder, in FETCH
order (not PinnedOrder order); ids pinned but absent from the fetch are
silently dropped (the filter never produces them); the remaining
fetched projects follow in the "other" partition in fetch order
(provided the batches complete in index order and the pinned batch does
not fail wholesale). -/
theorem snapshot_partition_fetch_order (pins : List Int) (ce : CycleEnv)
    (st : ComponentState) (hfetch : ce.fetchFails = false)
    (hpf : ce.pinnedFails = false)
    (horder : ce.order = List.range (makeBatches (otherOf pins ce)).length) :
    ((loadPipelinesOptimized pins ce st).1.projects.map (fun p => p.toGitLabProject)) =
      pinnedOf pins ce ++ otherOf pins ce := by
  have hvalid : otherOf pins ce = [] → ce.order = [] := by
    intro h
    rw [horder, h]
    rfl
  rw [cycle_ok pins ce st hfetch hvalid]
  show (finalSnapshotOf pins ce).map (fun p => p.toGitLabProject) = _
  unfold finalSnapshotOf otherRun
  rw [List.map_append, pinnedResultOf_proj pins ce hpf, horder, runBatches_range_proj]

/-- Three fetched projects with ids 1, 2, 3, of which 2 is pinned; the
single batch of others completes in index order. -/
def c2wenv : CycleEnv :=
  ⟨false, [sampleProject 1, sampleProject 2, sampleProject 3], false,
   fun _ => none, fun _ => false, [0]⟩

/-- Witness for the amended C2 theorem at a concrete cycle: pins `[2]`,
fetch `[1, 2, 3]`, in-order completion. -/
theorem snapshot_partition_fetch_order_witness :
    ((loadPipelinesOptimized [2] c2wenv emptyComponentState).1.projects.map
        (fun p => p.toGitLabProject)) =
      pinnedOf [2] c2wenv ++ otherOf [2] c2wenv :=
  snapshot_partition_fetch_order [2] c2wenv emptyComponentState rfl rfl (by decide)

/-- C5: while the starting snapshot is empty (`isInitialLoad`), the
cycle publishes, after the j-th batch completion, the pinned result
followed by the results of the batches completed so far, and finally the
full snapshot; on a background refresh (non-empty starting snapshot) the
whole cycle performs exactly one publish, the full snapshot, emitted
only after every batch has settled (it is the last event of the trace).
`hvalid` says the completion order is empty when there is nothing to
batch — true of every real completion order, which is a permutation of
the batch indices. -/
theorem cycle_publish_discipline (pins : List Int) (ce : CycleEnv) (st : ComponentState)
    (hfetch : ce.fetchFails = false)
    (hvalid : otherOf pins ce = [] → ce.order = []) :
    (st.projects = [] →
      (loadPipelinesOptimized pins ce st).2 =
        (List.range ce.order.length).map
          (fun j => pinnedResultOf pins ce ++ otherRun pins ce (ce.order.take (j + 1))) ++
          [finalSnapshotOf pins ce]) ∧
    (st.projects ≠ [] →
      (loadPipelinesOptimized pins ce st).2 = [finalSnapshotOf pins ce]) := by
  rw [cycle_ok pins ce st hfetch hvalid]
  constructor
  · intro h
    simp [h]
  · intro h
    simp [List.isEmpty_iff, h]

/-- One fetched project, not pinned, one batch completing in order. -/
def c5env : CycleEnv :=
  ⟨false, [sampleProject 1], false, fun _ => none, fun _ => false, [0]⟩

/-- Witness for C5 at a concrete initial-load cycle. -/
theorem cycle_publish_discipline_witness :
    (emptyComponentState.projects = [] →
      (loadPipelinesOptimized [] c5env emptyComponentState).2 =
        (List.range c5env.order.length).map
          (fun j => pinnedResultOf [] c5env ++ otherRun [] c5env (c5env.order.take (j + 1))) ++
          [finalSnapshotOf [] c5env]) ∧
    (emptyComponentState.projects ≠ [] →
      (loadPipelinesOptimized [] c5env emptyComponentState).2 =
        [finalSnapshotOf [] c5env]) :=
  cycle_publish_discipline [] c5env emptyComponentState rfl (by decide)

/-- C6: when the project-list fetch fails, the cycle sets the error
message, clears `loading` and `refreshing` (and the partial-loading
flags), publishes nothing, leaves the snapshot exactly as it was, and
returns the pin store untouched. -/
theorem cycle_fetch_error_frame (ce : CycleEnv) (w : World)
    (h : ce.fetchFails = true) :
    (runCycle ce w).1.pins = w.pins ∧
    (runCycle ce w).1.comp.error =
      some "Failed to load projects. Please check your credentials." ∧
    (runCycle ce w).1.comp.loading = false ∧
    (runCycle ce w).1.comp.refreshing = false ∧
    (runCycle ce w).1.comp.loadingPinned = false ∧
    (runCycle ce w).1.comp.loadingOthers = false ∧
    (runCycle ce w).1.comp.projects = w.comp.projects ∧
    (runCycle ce w).1.comp.retryingPipelines = w.comp.retryingPipelines ∧
    (runCycle ce w).2 = [] := by
  unfold runCycle loadPipelinesOptimized onProjectsError setCycleFlags
  rw [h]
  cases hinit : w.comp.projects.isEmpty <;> simp

/-- A failing project-list fetch. -/
def c6env : CycleEnv :=
  ⟨true, [], false, fun _ => none, fun _ => false, []⟩

/-- A world mid-lifecycle: one project on screen, id 7 pinned. -/
def c6world : World :=
  ⟨[7], ⟨[⟨sampleProject 3, none⟩], false, false, false, false, none, []⟩, true⟩

/-- Witness for C6 at a concrete failing cycle. -/
theorem cycle_fetch_error_frame_witness :
    (runCycle c6env c6world).1.pins = c6world.pins ∧
    (runCycle c6env c6world).1.comp.error =
      some "Failed to load projects. Please check your credentials." ∧
    (runCycle c6env c6world).1.comp.loading = false ∧
    (runCycle c6env c6world).1.comp.refreshing = false ∧
    (runCycle c6env c6world).1.comp.loadingPinned = false ∧
    (runCycle c6env c6world).1.comp.loadingOthers = false ∧
    (runCycle c6env c6world).1.comp.projects = c6world.comp.projects ∧
    (runCycle c6env c6world).1.comp.retryingPipelines = c6world.comp.retryingPipelines ∧
    (runCycle c6env c6world).2 = [] :=
  cycle_fetch_error_frame c6env c6world rfl

/-- A world torn down in the middle of a background refresh: snapshot on
screen, `refreshing` raised, the `getProjects` request still in
flight. -/
def c7world : World :=
  ⟨[], ⟨[⟨sampleProject 1, none⟩], false, true, false, false, none, []⟩, true⟩

/-- C7 counterexample: `ngOnDestroy` only unsubscribes the interval
timer; nothing cancels or guards the in-flight `getProjects`
subscription, so when its error callback lands after teardown it still
clears `refreshing` and sets the error signal — coordinator state is
mutated after stop, contradicting the claim. -/
theorem late_completion_counterexample :
    (ngOnDestroy c7world).comp.refreshing = true ∧
    (onProjectsError (ngOnDestroy c7world).comp).refreshing = false ∧
    (onProjectsError (ngOnDestroy c7world).comp).error ≠ (ngOnDestroy c7world).comp.error := by
  decide

/-- C7 amended: after `ngOnDestroy` the repeating timer never fires
again (a tick is a no-op for every environment and world), but
completions of requests in flight at teardown are not guarded and still
mutate component state (witnessed by the fetch-error handler on the
torn-down world). -/
theorem stop_timer_silence :
    (∀ (ce : CycleEnv) (w : World), handleTimerTick ce (ngOnDestroy w) = (ngOnDestroy w, [])) ∧
    onProjectsError (ngOnDestroy c7world).comp ≠ (ngOnDestroy c7world).comp := by
  constructor
  · intro ce w
    simp [handleTimerTick, ngOnDestroy]
  · decide

/-- Reading an in-bounds position of a mapped list applies the function
to the original element, whatever the defaults. -/
lemma getD_map_lt {α β : Type} (f : α → β) :
    ∀ (l : List α) (j : Nat), j < l.length → ∀ (d : β) (d0 : α),
      (l.map f).getD j d = f (l.getD j d0) := by
  intro l
  induction l with
  | nil => intro j hj; exact absurd hj (Nat.not_lt_zero j)
  | cons a t ih =>
    intro j hj d d0
    cases j with
    | zero => rfl
    | succ n =>
      simpa only [List.map_cons, List.getD_cons_succ] using
        ih n (Nat.lt_of_succ_lt_succ hj) d d0

/-- A placeholder entry for the default argument of `List.getD`. -/
def defaultPWP : ProjectWithPipeline :=
  ⟨⟨0, "", "", ""⟩, none⟩

/-- C9: a successful retry maps the snapshot entrywise — same length
(hence same order), every entry with a different id untouched, every
entry with the retried id keeps its project fields and gets exactly the
server-returned pipeline — and leaves the retried id out of the
retrying set. -/
theorem retry_success_frame (resp pl : GitLabPipeline) (project : ProjectWithPipeline)
    (st : ComponentState) (hpl : project.pipeline = some pl) :
    (retryPipeline (some resp) project st).projects.length = st.projects.length ∧
    (∀ j, j < st.projects.length →
      ((st.projects.getD j defaultPWP).id ≠ project.id →
        (retryPipeline (some resp) project st).projects.getD j defaultPWP =
          st.projects.getD j defaultPWP) ∧
      ((st.projects.getD j defaultPWP).id = project.id →
        ((retryPipeline (some resp) project st).projects.getD j defaultPWP).toGitLabProject =
          (st.projects.getD j defaultPWP).toGitLabProject ∧
        ((retryPipeline (some resp) project st).projects.getD j defaultPWP).pipeline =
          some resp)) ∧
    project.id ∉ (retryPipeline (some resp) project st).retryingPipelines := by
  have hproj : (retryPipeline (some resp) project st).projects =
      st.projects.map (fun p =>
        if p.id = project.id then { p with pipeline := some resp } else p) := by
    unfold retryPipeline
    rw [hpl]
  have hret : (retryPipeline (some resp) project st).retryingPipelines =
      setDelete (setAdd st.retryingPipelines project.id) project.id := by
    unfold retryPipeline
    rw [hpl]
  refine ⟨by rw [hproj, List.length_map], ?_, ?_⟩
  · intro j hj
    have hg := getD_map_lt
      (fun p => if p.id = project.id then { p with pipeline := some resp } else p)
      st.projects j hj defaultPWP defaultPWP
    constructor
    · intro hne
      rw [hproj, hg, if_neg hne]
    · intro heq
      rw [hproj, hg, if_pos heq]
      exact ⟨rfl, rfl⟩
  · rw [hret]
    unfold setDelete
    intro hmem
    have := (List.mem_filter.mp hmem).2
    simp at this

/-- A concrete pipeline record. -/
def samplePipeline (i : Int) (s : String) : GitLabPipeline :=
  ⟨i, s, "", "", "", "", ""⟩

/-- A project on screen with a failed pipeline. -/
def c9project : ProjectWithPipeline :=
  ⟨sampleProject 1, some (samplePipeline 5 "failed")⟩

/-- A snapshot holding the retried project and an unrelated one. -/
def c9state : ComponentState :=
  ⟨[c9project, ⟨sampleProject 2, none⟩], false, false, false, false, none, []⟩

/-- The pipeline the retry endpoint returns. -/
def c9resp : GitLabPipeline :=
  samplePipeline 6 "pending"

/-- Witness for C9 at a concrete retry. -/
theorem retry_success_frame_witness :
    (retryPipeline (some c9resp) c9project c9state).projects.length =
      c9state.projects.length ∧
    (∀ j, j < c9state.projects.length →
      ((c9state.projects.getD j defaultPWP).id ≠ c9project.id →
        (retryPipeline (some c9resp) c9project c9state).projects.getD j defaultPWP =
          c9state.projects.getD j defaultPWP) ∧
      ((c9state.projects.getD j defaultPWP).id = c9project.id →
        ((retryPipeline (some c9resp) c9project c9state).projects.getD j
            defaultPWP).toGitLabProject =
          (c9state.projects.getD j defaultPWP).toGitLabProject ∧
        ((retryPipeline (some c9resp) c9project c9state).projects.getD j
            defaultPWP).pipeline = some c9resp)) ∧
    c9project.id ∉ (retryPipeline (some c9resp) c9project c9state).retryingPipelines :=
  retry_success_frame c9resp (samplePipeline 5 "failed") c9project c9state rfl

/-- The import document of the C3 counterexample: a valid version,
valid non-empty credentials, and a pinnedRepos array with a string
element. -/
def c3doc : ImportDoc :=
  ⟨some "1.0", some ⟨"user", "tok"⟩, some (.jarr [.jnum 1, .jstr "2"]), none⟩

/-- Empty stores before the C3 import attempt. -/
def c3st : StoredState :=
  ⟨none, []⟩

/-- C3 counterexample: importing a document with valid credentials and
an invalid `pinnedRepos` array aborts with the descriptive error, yet
the stored credentials have already been changed (the source saves
credentials before validating `pinnedRepos`) — so a violated validation
rule does not leave all stored state unchanged. -/
theorem import_partial_state_counterexample :
    (importUserData c3doc c3st).importError =
      "Invalid pinned repos data: must be array of numbers" ∧
    (importUserData c3doc c3st).state.credentials = some ⟨"user", "tok"⟩ ∧
    c3st.credentials = none :=
  ⟨rfl, rfl, rfl⟩

/-- C3 amended: an aborted import (non-empty `importError`) never
changes the stored pin order, and leaves the stored credentials
unchanged except in one case: the abort came from the `pinnedRepos`
validation after valid credentials were already saved. -/
theorem import_abort_frame (doc : ImportDoc) (st : StoredState)
    (h : (importUserData doc st).importError ≠ "") :
    (importUserData doc st).state.pinnedOrder = st.pinnedOrder ∧
    ((importUserData doc st).state.credentials = st.credentials ∨
      (importUserData doc st).importError =
        "Invalid pinned repos data: must be array of numbers") := by
  cases hr : importUserData doc st with
  | mk rstate rerr rsuccess =>
    rw [hr] at h
    unfold importUserData at hr
    split at hr
    · cases hr
      exact ⟨rfl, Or.inl rfl⟩
    · split at hr
      · -- credentials present
        split at hr
        · cases hr
          exact ⟨rfl, Or.inl rfl⟩
        · simp only [importPinnedStep, finishImport, eq_self_iff_true, if_true,
            ite_true] at hr
          split at hr
          · split at hr
            · split at hr
              · cases hr
                exact absurd rfl h
              · cases hr
                exact ⟨rfl, Or.inr rfl⟩
            · cases hr
              exact absurd rfl h
          · cases hr
            exact absurd rfl h
      · -- credentials absent
        simp only [importPinnedStep, finishImport, Bool.false_eq_true, if_false,
          ite_false] at hr
        split at hr
        · split at hr
          · split at hr
            · cases hr
              exact absurd rfl h
            · cases hr
              exact ⟨rfl, Or.inl rfl⟩
          · cases hr
            exact ⟨rfl, Or.inl rfl⟩
        · cases hr
          exact ⟨rfl, Or.inl rfl⟩

/-- Witness for the amended C3 theorem at the concrete aborted import. -/
theorem import_abort_frame_witness :
    (importUserData c3doc c3st).importError ≠ "" ∧
    ((importUserData c3doc c3st).state.pinnedOrder = c3st.pinnedOrder ∧
      ((importUserData c3doc c3st).state.credentials = c3st.credentials ∨
        (importUserData c3doc c3st).importError =
          "Invalid pinned repos data: must be array of numbers")) :=
  ⟨by decide, import_abort_frame c3doc c3st (by decide)⟩

/-- Stored state whose credentials have an empty username while the pin
order is non-empty. -/
def c10badState : StoredState :=
  ⟨some ⟨"", "tok"⟩, [1]⟩

/-- C10 counterexample: a stored state with a non-empty pinned order
(so it satisfies the claim's hypothesis) but an empty username in its
credentials exports a document that its own import then rejects
(`Invalid credentials data`): export followed by import does not
succeed, so it is not a round-trip identity for every such state. -/
theorem roundtrip_failure_counterexample :
    c10badState.pinnedOrder ≠ [] ∧
    (importUserData (exportUserData c10badState "2026-01-01T00:00:00Z")
        c10badState).importSuccess = false ∧
    (importUserData (exportUserData c10badState "2026-01-01T00:00:00Z")
        c10badState).importError = "Invalid credentials data" :=
  ⟨by decide, rfl, rfl⟩

/-- A list of numeric JSON values is recognised as all-numbers. -/
lemma jnum_all_numbers (l : List Int) : (l.map JVal.jnum).all jIsNumber = true := by
  induction l with
  | nil => rfl
  | cons a t ih => simpa [jIsNumber] using ih

/-- Reading numeric payloads back from wrapped numbers is the
identity. -/
lemma jnum_map_val (l : List Int) : (l.map JVal.jnum).map jNumVal = l := by
  induction l with
  | nil => rfl
  | cons a t ih => simpa [jNumVal] using ih

/-- C10 amended: for every stored state whose credentials, when
present, have a non-empty username and token, and which holds
credentials or a non-empty pin order, running export and then import on
the produced document succeeds, clears the error, and restores exactly
the stored credentials and the exact pinned id sequence — a round-trip
identity on the persisted state. -/
theorem export_import_roundtrip (st : StoredState) (d : String)
    (hc : ∀ c, st.credentials = some c → c.username ≠ "" ∧ c.token ≠ "")
    (hne : st.credentials ≠ none ∨ st.pinnedOrder ≠ []) :
    importUserData (exportUserData st d) st = ⟨st, "", true⟩ := by
  obtain ⟨creds, pins⟩ := st
  cases creds with
  | some c =>
    obtain ⟨hu, ht⟩ := hc c rfl
    have hcc : ¬(c.username = "" ∨ c.token = "") := not_or.mpr ⟨hu, ht⟩
    cases pins with
    | nil =>
      unfold exportUserData importUserData importPinnedStep finishImport
      simp only [List.isEmpty_nil, if_true, ite_true, versionFalsy,
        Bool.false_eq_true, if_false, ite_false]
      rw [if_neg hcc]
      rw [if_neg (by decide : ¬decide ("1.0" = "") = true)]
    | cons p ps =>
      unfold exportUserData importUserData importPinnedStep finishImport
      simp only [List.isEmpty_cons, Bool.false_eq_true, if_false, ite_false,
        versionFalsy]
      rw [if_neg hcc]
      simp only [jTruthy, jIsArray, jElems, Bool.and_self, eq_self_iff_true,
        if_true, ite_true, jnum_all_numbers, jnum_map_val]
      rw [if_neg (by decide : ¬decide ("1.0" = "") = true)]
  | none =>
    have hp : pins ≠ [] := by
      cases hne with
      | inl hl => exact absurd rfl hl
      | inr hr => exact hr
    cases pins with
    | nil => exact absurd rfl hp
    | cons p ps =>
      unfold exportUserData importUserData importPinnedStep finishImport
      simp only [List.isEmpty_cons, Bool.false_eq_true, if_false, ite_false,
        versionFalsy, jTruthy, jIsArray, jElems, Bool.and_self, eq_self_iff_true,
        if_true, ite_true, jnum_all_numbers, jnum_map_val]
      rw [if_neg (by decide : ¬decide ("1.0" = "") = true)]

/-- A stored state with well-formed credentials and two pins. -/
def c10goodState : StoredState :=
  ⟨some ⟨"alice", "tok"⟩, [4, 2]⟩

/-- Witness for the amended C10 theorem at a concrete state. -/
theorem export_import_roundtrip_witness :
    importUserData (exportUserData c10goodState "2026-01-02T00:00:00Z") c10goodState =
      ⟨c10goodState, "", true⟩ :=
  export_import_roundtrip c10goodState "2026-01-02T00:00:00Z"
    (fun c hcc => by
      injection hcc with h2
      rw [← h2]
      exact ⟨by decide, by decide⟩)
    (Or.inl (by decide))
